import Mathlib

/-!
Verification of the declarative field-extraction engine of the
tendril-connector-tally repository (`src/tendril/utils/connectors/tally/__init__.py`).

The Python source is shallowly embedded:
  - parsed XML nodes (BeautifulSoup tags) become the `Node` tree;
  - the value argument a field rule can receive (a tag or a plain string)
    becomes `Soup`;
  - Python exception classes relevant to the extraction error policy become
    the `PyError` enumeration;
  - the per-class specification tables (`elements`, `descendent_elements`,
    `attrs`, `lists`, `multilines`) become lists of entries whose value
    types are the `ValueType` inductive (with `ValueType.element` carrying
    the nested class's own five tables);
  - `TallyElement.__init__` / `_populate` and the five `_process_*` passes
    become `constructElement` and the `process*` functions;
  - `TallyReport` (`cachename`, `_acquire_cached_raw_response`, `soup`,
    `__getattr__`) becomes `cachenameOf`, `acquireCachedRaw`, `soupGet`,
    `reportGetattr` over an explicit environment and state.

Python `Decimal` values are modelled as an integer coefficient together with
a decimal scale (the value is `num / 10 ^ scale`), which captures
`Decimal("0")` and the parse failures the claims depend on.
-/

namespace Tally

/-- Python exception kinds that the extraction code raises or catches.
`exception` stands for the bare `Exception` raised by `_process_multilines`
on an ambiguous container match; `tallyNotAvailable` is the connector's
`TallyNotAvailable` (a `ConnectionError` subclass). -/
inductive PyError : Type where
  | typeError
  | attributeError
  | indexError
  | nameError
  | invalidOperation
  | valueError
  | keyError
  | exception
  | notImplementedError
  | tallyNotAvailable
deriving DecidableEq, Repr

/-- A parsed XML node: tag name, the node's own text content, the attribute
mapping, and the ordered child nodes. Names are stored already lowercased,
matching what the lxml-backed BeautifulSoup parser produces. -/
inductive Node : Type where
  | mk : String → String → List (String × String) → List Node → Node

def Node.name : Node → String
  | .mk nm _ _ _ => nm

def Node.ownText : Node → String
  | .mk _ t _ _ => t

def Node.attrs : Node → List (String × String)
  | .mk _ _ ats _ => ats

def Node.children : Node → List Node
  | .mk _ _ _ cs => cs

mutual

/-- BeautifulSoup `.text`: the concatenated text of the node and all of its
descendants. -/
def Node.getText : Node → String
  | .mk _ t _ cs => t ++ Node.getTextList cs

def Node.getTextList : List Node → String
  | [] => ""
  | c :: cs => Node.getText c ++ Node.getTextList cs

end

mutual

/-- All descendants of a node in document (preorder) order, the traversal
order used by BeautifulSoup `findChildren` / `findAll`. -/
def Node.descendants : Node → List Node
  | .mk _ _ _ cs => Node.descendantsList cs

def Node.descendantsList : List Node → List Node
  | [] => []
  | c :: cs => c :: (Node.descendants c ++ Node.descendantsList cs)

end

/-- `tag.findChildren(name)` with the default recursive search: all
descendants whose name matches, in document order. -/
def Node.findChildren (n : Node) (nm : String) : List Node :=
  (Node.descendants n).filter (fun c => c.name == nm)

/-- `tag.findChildren(name, recursive=False)`: direct children whose name
matches, in document order. -/
def Node.findChildrenDirect (n : Node) (nm : String) : List Node :=
  n.children.filter (fun c => c.name == nm)

def renderAttrList : List (String × String) → String
  | [] => ""
  | (k, v) :: rest => " " ++ k ++ "=\"" ++ v ++ "\"" ++ renderAttrList rest

mutual

/-- Python `str(tag)`: the serialized markup of a tag (used when a `lists`
entry applies `str` to a candidate node). -/
def Node.render : Node → String
  | .mk nm t ats cs =>
      "<" ++ nm ++ renderAttrList ats ++ ">" ++ t ++ Node.renderList cs
        ++ "</" ++ nm ++ ">"

def Node.renderList : List Node → String
  | [] => ""
  | c :: cs => Node.render c ++ Node.renderList cs

end

/-- The value held in a `TallyElement`'s `_soup` slot. The constructor is
meant to receive a parsed tag, but `_process_elements` and
`_process_descendent_elements` pass `candidates[0].text`, a plain string,
so both shapes must be representable. -/
inductive Soup : Type where
  | node : Node → Soup
  | str : String → Soup

/-- Python `str(x)` as applied by a `lists` rule to its candidate. -/
def soupRender : Soup → String
  | .node n => Node.render n
  | .str s => s

/-- The `valueType` slot of a specification-table entry: the Python builtin
`str`, `decimal.Decimal`, `int`, or a `TallyElement` subclass carrying its
own five tables (`elements`, `descendent_elements`, `attrs`, `lists`,
`multilines`, in the source's declaration order). -/
inductive ValueType : Type where
  | str
  | decimal
  | intType
  | element :
      List (String × String × ValueType × Bool) →
      List (String × String × ValueType × Bool) →
      List (String × String × ValueType × Bool) →
      List (String × String × ValueType) →
      List (String × String × ValueType × Bool) →
      ValueType

/-- An `elements` / `descendent_elements` / `attrs` / `multilines` table
entry: output attribute name, source name, value type, required flag. -/
abbrev EEntry := String × String × ValueType × Bool

/-- A `lists` table entry: output attribute name, source name, value type.
There is no required flag in this category. -/
abbrev LEntry := String × String × ValueType

/-- A Python value produced by extraction: a string, a `Decimal`
(coefficient and decimal scale, value `num / 10 ^ scale`), an `int`,
`None`, a populated `TallyElement` (its context reference and its assigned
attributes in assignment order), a list, or a `CaseInsensitiveDict`. -/
inductive PyVal : Type where
  | str : String → PyVal
  | dec : Int → Nat → PyVal
  | int : Int → PyVal
  | none : PyVal
  | obj : Nat → List (String × PyVal) → PyVal
  | list : List PyVal → PyVal
  | dict : List (String × PyVal) → PyVal

/-- Evaluate a fallible function over a list, propagating the first failure:
the evaluation order of a Python list comprehension whose body may raise. -/
def exceptMap (f : α → Except ε β) : List α → Except ε (List β)
  | [] => .ok []
  | a :: rest =>
    match f a with
    | .error e => .error e
    | .ok b =>
      match exceptMap f rest with
      | .error e => .error e
      | .ok bs => .ok (b :: bs)

/-- The characters Python `str.strip()` removes. -/
def pyIsSpace (c : Char) : Bool :=
  c == ' ' || c == '\t' || c == '\n' || c == '\r' || c == '\x0b' || c == '\x0c'

/-- Python `s.strip()`: remove leading and trailing whitespace. -/
def pyStrip (s : String) : String :=
  ⟨((s.data.dropWhile pyIsSpace).reverse.dropWhile pyIsSpace).reverse⟩

def natOfDigitsAux : Nat → List Char → Option Nat
  | acc, [] => some acc
  | acc, c :: cs =>
    if c.isDigit then natOfDigitsAux (acc * 10 + (c.toNat - 48)) cs else none

/-- Split a digit sequence at a single decimal point; more than one decimal
point is a parse failure. -/
def splitFrac (cs : List Char) : Option (List Char × List Char) :=
  match cs.span (fun c => c != '.') with
  | (ip, []) => some (ip, [])
  | (ip, _ :: fp) => if fp.contains '.' then none else some (ip, fp)

def parseSignedDigits (cs : List Char) (sign : Int) : Option (Int × Nat) :=
  match splitFrac cs with
  | none => none
  | some (ip, fp) =>
    if ip.length + fp.length == 0 then none
    else
      match natOfDigitsAux 0 (ip ++ fp) with
      | none => none
      | some n => some (sign * (n : Int), fp.length)

/-- Python `decimal.Decimal(s)` on the inputs the connector can feed it:
surrounding whitespace is accepted, then an optional sign, digits, and an
optional fractional part; anything else (in particular the empty or
whitespace-only string) raises `InvalidOperation`. -/
def parseDecimal (s : String) : Option (Int × Nat) :=
  match (pyStrip s).data with
  | '-' :: cs => parseSignedDigits cs (-1)
  | '+' :: cs => parseSignedDigits cs 1
  | cs => parseSignedDigits cs 1

def parseIntDigits (cs : List Char) (sign : Int) : Option Int :=
  if cs.isEmpty then none
  else (natOfDigitsAux 0 cs).map (fun n => sign * (n : Int))

/-- Python `int(s)`: surrounding whitespace, optional sign, digits; anything
else raises `ValueError`. -/
def parseInt (s : String) : Option Int :=
  match (pyStrip s).data with
  | '-' :: cs => parseIntDigits cs (-1)
  | '+' :: cs => parseIntDigits cs 1
  | cs => parseIntDigits cs 1

/-- The exception classes named by the first handler of `_process_elements`
and `_process_descendent_elements`:
`(TypeError, AttributeError, IndexError, NameError, InvalidOperation)`. -/
def elementsCaught : PyError → Bool
  | .typeError | .attributeError | .indexError | .nameError
  | .invalidOperation => true
  | _ => false

/-- The exception classes named by the first handler of
`_process_multilines`: `(TypeError, AttributeError, IndexError)`. -/
def multilinesCaught : PyError → Bool
  | .typeError | .attributeError | .indexError => true
  | _ => false

/-- The optional/required error policy shared by the `_process_*` handlers:
an exception of a caught class resolves to `None` when the field is
optional and re-raises when required; every other exception (including the
explicitly re-raised `ValueError`) propagates. -/
def applyPolicy (caught : PyError → Bool) (req : Bool) :
    Except PyError PyVal → Except PyError PyVal
  | .ok v => .ok v
  | .error e =>
      if caught e then (if req then .error e else .ok .none) else .error e

/-- `self._soup.findChildren(name, recursive=False)` where `_soup` may be a
tag or (through the nested-construction path) a plain string, which has no
`findChildren` attribute. -/
def soupFindChildrenDirect : Soup → String → Except PyError (List Node)
  | .str _, _ => .error .attributeError
  | .node n, nm => .ok (n.findChildrenDirect nm)

/-- `self._soup.findChildren(name)` (recursive), same `_soup` caveat. -/
def soupFindChildren : Soup → String → Except PyError (List Node)
  | .str _, _ => .error .attributeError
  | .node n, nm => .ok (n.findChildren nm)

/-- `'\n'.join(lines)`: succeeds only when every joined value is a string,
otherwise Python raises `TypeError`. -/
def allStrings : List PyVal → Option (List String)
  | [] => some []
  | .str s :: rest => (allStrings rest).map (fun ss => s :: ss)
  | _ => none

def joinLines (vs : List PyVal) : Except PyError PyVal :=
  match allStrings vs with
  | some ss => .ok (.str (String.intercalate "\n" ss))
  | none => .error .typeError

theorem list_sizeOf_pos [SizeOf α] (l : List α) : 0 < sizeOf l := by
  cases l <;> simp

mutual

/-- Applying an entry's `valueType` to a text argument (`v[1](text)`):
`str` is the identity, `Decimal` and `int` parse (raising
`InvalidOperation` / `ValueError` on failure), and a `TallyElement`
subclass runs its constructor — i.e. full extraction — on the string. -/
def coerceText (ctx : Nat) (vt : ValueType) (s : String) :
    Except PyError PyVal :=
  match vt with
  | .str => .ok (.str s)
  | .decimal =>
      match parseDecimal s with
      | some (n, sc) => .ok (.dec n sc)
      | none => .error .invalidOperation
  | .intType =>
      match parseInt s with
      | some n => .ok (.int n)
      | none => .error .valueError
  | .element es ds as ls ms => constructElement ctx es ds as ls ms (Soup.str s)
termination_by (sizeOf vt, 0)

/-- Applying a `lists` entry's `valueType` to a candidate node:
`v[1](c, self._ctx)` when it is a `TallyElement` subclass, `v[1](c)`
otherwise (`str` serializes the tag; `Decimal` and `int` raise
`TypeError` on a tag argument). -/
def coerceNodeArg (ctx : Nat) (vt : ValueType) (sp : Soup) :
    Except PyError PyVal :=
  match vt with
  | .str => .ok (.str (soupRender sp))
  | .decimal => .error .typeError
  | .intType => .error .typeError
  | .element es ds as ls ms => constructElement ctx es ds as ls ms sp
termination_by (sizeOf vt, 0)

/-- The body of the `_process_attrs` loop for one entry:
`v[1](self._soup.attrs[v[0]])`. -/
def attrsEntryBody (ctx : Nat) (sp : Soup) (src : String) (vt : ValueType) :
    Except PyError PyVal :=
  match sp with
  | .str _ => .error .attributeError
  | .node n =>
      match n.attrs.lookup src with
      | none => .error .keyError
      | some a => coerceText ctx vt a
termination_by (sizeOf vt, 5)

/-- The body of the `_process_elements` loop for one entry: direct-child
candidates; `str` joins all candidate texts with `:`; otherwise more than
one candidate raises `NameError`, zero candidates raise `IndexError` at
`candidates[0]`, a `TallyElement` type is constructed from
`candidates[0].text` (the text, not the node), a `Decimal` type resolves
whitespace-only text to `Decimal("0")`, and any other type coerces the
text. -/
def elementsEntryBody (ctx : Nat) (sp : Soup) (src : String)
    (vt : ValueType) : Except PyError PyVal :=
  match soupFindChildrenDirect sp src with
  | .error e => .error e
  | .ok cands =>
    match vt with
    | .str => .ok (.str (String.intercalate ":" (cands.map Node.getText)))
    | .element es ds as ls ms =>
        if cands.length > 1 then .error .nameError
        else
          match cands with
          | [] => .error .indexError
          | c :: _ => constructElement ctx es ds as ls ms (Soup.str c.getText)
    | .decimal =>
        if cands.length > 1 then .error .nameError
        else
          match cands with
          | [] => .error .indexError
          | c :: _ =>
              if pyStrip c.getText == "" then .ok (.dec 0 0)
              else coerceText ctx .decimal c.getText
    | .intType =>
        if cands.length > 1 then .error .nameError
        else
          match cands with
          | [] => .error .indexError
          | c :: _ => coerceText ctx .intType c.getText
termination_by (sizeOf vt, 5)

/-- The body of the `_process_descendent_elements` loop for one entry: as
`elementsEntryBody` but over all descendants and without the
`Decimal`/whitespace special case. -/
def descendentEntryBody (ctx : Nat) (sp : Soup) (src : String)
    (vt : ValueType) : Except PyError PyVal :=
  match soupFindChildren sp src with
  | .error e => .error e
  | .ok cands =>
    match vt with
    | .str => .ok (.str (String.intercalate ":" (cands.map Node.getText)))
    | .element es ds as ls ms =>
        if cands.length > 1 then .error .nameError
        else
          match cands with
          | [] => .error .indexError
          | c :: _ => constructElement ctx es ds as ls ms (Soup.str c.getText)
    | .decimal =>
        if cands.length > 1 then .error .nameError
        else
          match cands with
          | [] => .error .indexError
          | c :: _ => coerceText ctx .decimal c.getText
    | .intType =>
        if cands.length > 1 then .error .nameError
        else
          match cands with
          | [] => .error .indexError
          | c :: _ => coerceText ctx .intType c.getText
termination_by (sizeOf vt, 5)

/-- The body of the `_process_lists` loop for one entry: every node named
`<sourceName>.list` (recursive search) becomes one element, constructed by
applying the value type to the node itself. -/
def listsEntryBody (ctx : Nat) (sp : Soup) (src : String) (vt : ValueType) :
    Except PyError PyVal :=
  match soupFindChildren sp (src ++ ".list") with
  | .error e => .error e
  | .ok cands =>
      match exceptMap (fun c => coerceNodeArg ctx vt (Soup.node c)) cands with
      | .error e => .error e
      | .ok vs => .ok (.list vs)
termination_by (sizeOf vt, 5)

/-- The body of the `_process_multilines` loop for one entry: find the
`<sourceName>.list` containers; zero yields `''`, more than one raises a
bare `Exception`; otherwise coerce each stripped matching line inside the
container, yielding the single line itself, `''` for no lines, or the
newline join. -/
def multilinesEntryBody (ctx : Nat) (sp : Soup) (src : String)
    (vt : ValueType) : Except PyError PyVal :=
  match soupFindChildren sp (src ++ ".list") with
  | .error e => .error e
  | .ok cands =>
    if cands.length == 0 then .ok (.str "")
    else if cands.length > 1 then .error .exception
    else
      match cands with
      | [] => .ok (.str "")
      | c :: _ =>
        match exceptMap (fun l => coerceText ctx vt (pyStrip (Node.getText l)))
            (c.findChildren src) with
        | .error e => .error e
        | .ok lines =>
          match lines with
          | [l] => .ok l
          | [] => .ok (.str "")
          | ls => joinLines ls
termination_by (sizeOf vt, 5)

/-- One `_process_attrs` iteration: the entry body wrapped in the bare
`except:` handler, which applies the optional/required policy to every
exception kind. -/
def processAttrsEntry (ctx : Nat) (sp : Soup) (src : String) (vt : ValueType)
    (req : Bool) : Except PyError PyVal :=
  applyPolicy (fun _ => true) req (attrsEntryBody ctx sp src vt)
termination_by (sizeOf vt, 6)

/-- One `_process_elements` iteration: the entry body wrapped in
`except (TypeError, AttributeError, IndexError, NameError,
InvalidOperation)` plus the re-raising `except ValueError`. -/
def processElementsEntry (ctx : Nat) (sp : Soup) (src : String)
    (vt : ValueType) (req : Bool) : Except PyError PyVal :=
  applyPolicy elementsCaught req (elementsEntryBody ctx sp src vt)
termination_by (sizeOf vt, 6)

/-- One `_process_descendent_elements` iteration, same handlers as
`processElementsEntry`. -/
def processDescendentEntry (ctx : Nat) (sp : Soup) (src : String)
    (vt : ValueType) (req : Bool) : Except PyError PyVal :=
  applyPolicy elementsCaught req (descendentEntryBody ctx sp src vt)
termination_by (sizeOf vt, 6)

/-- One `_process_lists` iteration: there is no try/except around the body
and the entry carries no required flag. -/
def processListsEntry (ctx : Nat) (sp : Soup) (src : String)
    (vt : ValueType) : Except PyError PyVal :=
  listsEntryBody ctx sp src vt
termination_by (sizeOf vt, 6)

/-- One `_process_multilines` iteration: the entry body wrapped in
`except (TypeError, AttributeError, IndexError)` plus the re-raising
`except ValueError`. -/
def processMultilinesEntry (ctx : Nat) (sp : Soup) (src : String)
    (vt : ValueType) (req : Bool) : Except PyError PyVal :=
  applyPolicy multilinesCaught req (multilinesEntryBody ctx sp src vt)
termination_by (sizeOf vt, 6)

/-- `_process_attrs`: iterate the `attrs` table in declaration order,
collecting the `setattr` assignments; an uncaught exception aborts the
whole extraction. -/
def processAttrs (ctx : Nat) (sp : Soup) (entries : List EEntry) :
    Except PyError (List (String × PyVal)) :=
  match entries with
  | [] => .ok []
  | (k, src, vt, req) :: rest =>
    match processAttrsEntry ctx sp src vt req with
    | .error e => .error e
    | .ok v =>
      match processAttrs ctx sp rest with
      | .error e => .error e
      | .ok others => .ok ((k, v) :: others)
termination_by (sizeOf entries, 9)

/-- `_process_elements` over the whole `elements` table. -/
def processElements (ctx : Nat) (sp : Soup) (entries : List EEntry) :
    Except PyError (List (String × PyVal)) :=
  match entries with
  | [] => .ok []
  | (k, src, vt, req) :: rest =>
    match processElementsEntry ctx sp src vt req with
    | .error e => .error e
    | .ok v =>
      match processElements ctx sp rest with
      | .error e => .error e
      | .ok others => .ok ((k, v) :: others)
termination_by (sizeOf entries, 9)

/-- `_process_descendent_elements` over the whole `descendent_elements`
table. -/
def processDescendentElements (ctx : Nat) (sp : Soup)
    (entries : List EEntry) : Except PyError (List (String × PyVal)) :=
  match entries with
  | [] => .ok []
  | (k, src, vt, req) :: rest =>
    match processDescendentEntry ctx sp src vt req with
    | .error e => .error e
    | .ok v =>
      match processDescendentElements ctx sp rest with
      | .error e => .error e
      | .ok others => .ok ((k, v) :: others)
termination_by (sizeOf entries, 9)

/-- `_process_lists` over the whole `lists` table. -/
def processLists (ctx : Nat) (sp : Soup) (entries : List LEntry) :
    Except PyError (List (String × PyVal)) :=
  match entries with
  | [] => .ok []
  | (k, src, vt) :: rest =>
    match processListsEntry ctx sp src vt with
    | .error e => .error e
    | .ok v =>
      match processLists ctx sp rest with
      | .error e => .error e
      | .ok others => .ok ((k, v) :: others)
termination_by (sizeOf entries, 9)

/-- `_process_multilines` over the whole `multilines` table. -/
def processMultilines (ctx : Nat) (sp : Soup) (entries : List EEntry) :
    Except PyError (List (String × PyVal)) :=
  match entries with
  | [] => .ok []
  | (k, src, vt, req) :: rest =>
    match processMultilinesEntry ctx sp src vt req with
    | .error e => .error e
    | .ok v =>
      match processMultilines ctx sp rest with
      | .error e => .error e
      | .ok others => .ok ((k, v) :: others)
termination_by (sizeOf entries, 9)

/-- `TallyElement.__init__` / `_populate`: run the five passes in the
source's order (`attrs`, `elements`, `lists`, `multilines`,
`descendent_elements`) over the given `_soup` value with the given `_ctx`,
producing the populated object or the first uncaught exception. -/
def constructElement (ctx : Nat) (es ds as : List EEntry) (ls : List LEntry)
    (ms : List EEntry) (sp : Soup) : Except PyError PyVal :=
  match processAttrs ctx sp as with
  | .error e => .error e
  | .ok a1 =>
    match processElements ctx sp es with
    | .error e => .error e
    | .ok a2 =>
      match processLists ctx sp ls with
      | .error e => .error e
      | .ok a3 =>
        match processMultilines ctx sp ms with
        | .error e => .error e
        | .ok a4 =>
          match processDescendentElements ctx sp ds with
          | .error e => .error e
          | .ok a5 => .ok (.obj ctx (a1 ++ a2 ++ a3 ++ a4 ++ a5))
termination_by
  (sizeOf es + sizeOf ds + sizeOf as + sizeOf ls + sizeOf ms, 9)
decreasing_by
  all_goals
    (first
      | decreasing_tactic
      | (apply Prod.Lex.left
         have h1 := list_sizeOf_pos es
         have h2 := list_sizeOf_pos ds
         have h3 := list_sizeOf_pos as
         have h4 := list_sizeOf_pos ls
         have h5 := list_sizeOf_pos ms
         omega))

end

/-- The five specification tables a `TallyElement` subclass declares, in the
source's declaration order. -/
structure ElemSpec where
  elements : List EEntry
  descendentElements : List EEntry
  attrs : List EEntry
  lists : List LEntry
  multilines : List EEntry

/-- Construct a `TallyElement` of the given spec from a `_soup` value and a
context reference. -/
def constructFromSpec (ctx : Nat) (spec : ElemSpec) (sp : Soup) :
    Except PyError PyVal :=
  constructElement ctx spec.elements spec.descendentElements spec.attrs
    spec.lists spec.multilines sp

/-- The collaborators a `TallyReport` interacts with when acquiring its
document: the outcome of the live transport exchange
(`_acquire_raw_response`), the optional cache store (`cachefs`, holding
already-parsed raw responses keyed by file name), and the computed
`cachename` (`None` when the subclass declares no `_cachename`). -/
structure ReportEnv where
  transport : Except PyError Node
  cachefs : Option (List (String × Node))
  cachename : Option String

/-- `TallyReport.cachename`: `None` without a per-subclass `_cachename`;
otherwise the `_cachename` joined with the company name normalized by
replacing spaces with underscores and stripping dots and hyphens. -/
def cachenameOf (base : Option String) (companyName : String) :
    Option String :=
  match base with
  | none => none
  | some b =>
      some (b ++ "." ++
        (((companyName.replace " " "_").replace "." "").replace "-" ""))

/-- `_acquire_cached_raw_response`: read and parse `<cachename>.xml` from
the cache store; any failure is turned into `TallyNotAvailable` by the
bare `except`. -/
def acquireCachedRaw (env : ReportEnv) : Except PyError Node :=
  match env.cachefs, env.cachename with
  | some store, some cn =>
      match store.lookup (cn ++ ".xml") with
      | some doc => .ok doc
      | none => .error .tallyNotAvailable
  | _, _ => .error .tallyNotAvailable

/-- The `TallyReport.soup` property: return the memoized document if
present; otherwise attempt live acquisition, and on `TallyNotAvailable`
fall back to the cached raw response only when both a cache store and a
cache name exist, re-raising otherwise. -/
def soupGet (env : ReportEnv) (cur : Option Node) : Except PyError Node :=
  match cur with
  | some s => .ok s
  | none =>
    match env.transport with
    | .ok doc => .ok doc
    | .error e =>
      match e with
      | .tallyNotAvailable =>
        match env.cachefs, env.cachename with
        | some _, some _ => acquireCachedRaw env
        | _, _ => .error PyError.tallyNotAvailable
      | _ => .error e

/-- The class-level configuration of a `TallyReport` subclass: the optional
`_container` scoping element and the `_content` table mapping a collection
name to the element tag name and the `TallyElement` spec used as factory. -/
structure ReportConfig where
  container : Option String
  content : List (String × String × ElemSpec)

/-- The mutable state of a `TallyReport` instance: its identity (used as
the `_ctx` reference passed to constructed elements), the memoized parsed
document (`_soup`), and the dynamically created instance attributes that
`__getattr__` installs via `setattr`. -/
structure ReportState where
  ctxId : Nat
  soup : Option Node
  instAttrs : List (String × PyVal)

/-- Python instance-attribute read: the latest `setattr` for the name wins;
`__getattr__` only runs when this lookup misses. -/
def instLookup (attrsList : List (String × PyVal)) (k : String) :
    Option PyVal :=
  attrsList.reverse.lookup k

/-- `getattr(y, 'name')` followed by `CaseInsensitiveDict.__setitem__`'s
`key.lower()`: the element must carry a `name` attribute holding a string,
otherwise an `AttributeError` propagates. -/
def objName : PyVal → Except PyError String
  | .obj _ assigns =>
      match assigns.reverse.lookup "name" with
      | some (.str s) => .ok s
      | some _ => .error .attributeError
      | none => .error .attributeError
  | _ => .error .attributeError

/-- Python `key.lower()` on the ASCII collection keys the connector uses. -/
def pyLowerChar (c : Char) : Char :=
  if 'A' ≤ c ∧ c ≤ 'Z' then Char.ofNat (c.toNat + 32) else c

def pyLower (s : String) : String :=
  ⟨s.data.map pyLowerChar⟩

/-- `CaseInsensitiveDict` insertion: keys compare lowercased; a repeated
key overwrites in place, a new key appends. -/
def ciInsert (d : List (String × PyVal)) (k : String) (v : PyVal) :
    List (String × PyVal) :=
  if d.any (fun p => p.1 == pyLower k) then
    d.map (fun p => if p.1 == pyLower k then (p.1, v) else p)
  else d ++ [(pyLower k, v)]

/-- Fold the constructed elements into the case-insensitive mapping keyed
by each element's `name` attribute. -/
def buildMapping (acc : List (String × PyVal)) :
    List PyVal → Except PyError (List (String × PyVal))
  | [] => .ok acc
  | y :: rest =>
    match objName y with
    | .error e => .error e
    | .ok nm => buildMapping (ciInsert acc nm y) rest

/-- `soup.find(self._container)` scoping: when a container is configured,
the document is narrowed to the first matching descendant; a missing
container leaves `soup = None`, so the subsequent `findAll` raises
`AttributeError`. -/
def scopedSoup (container : Option String) (doc : Node) :
    Except PyError Node :=
  match container with
  | none => .ok doc
  | some cn =>
    match (doc.findChildren cn).head? with
    | some sub => .ok sub
    | none => .error .attributeError

/-- `TallyReport.__getattr__`: called only when normal instance-attribute
lookup misses. An undeclared collection name raises `AttributeError`;
otherwise the document is acquired, optionally scoped to the container,
every matching element is constructed with the report as context, the
results are keyed case-insensitively by their `name`, and the mapping is
installed with `setattr` before being returned. -/
def reportGetattr (cfg : ReportConfig) (env : ReportEnv) (st : ReportState)
    (item : String) : Except PyError (PyVal × ReportState) :=
  match instLookup st.instAttrs item with
  | some v => .ok (v, st)
  | none =>
    match cfg.content.lookup item with
    | none => .error .attributeError
    | some (tag, spec) =>
      match soupGet env st.soup with
      | .error e => .error e
      | .ok doc =>
        match scopedSoup cfg.container doc with
        | .error e => .error e
        | .ok sdoc =>
          match exceptMap (fun x => constructFromSpec st.ctxId spec (Soup.node x))
              (sdoc.findChildren tag) with
          | .error e => .error e
          | .ok objs =>
            match buildMapping [] objs with
            | .error e => .error e
            | .ok d =>
                .ok (.dict d,
                  { st with
                      soup := some doc
                      instAttrs := st.instAttrs ++ [(item, .dict d)] })

theorem applyPolicy_uncaught (caught : PyError → Bool) (req : Bool)
    (e : PyError) (h : caught e = false) :
    applyPolicy caught req (.error e) = .error e := by
  simp [applyPolicy, h]

theorem applyPolicy_caught (caught : PyError → Bool) (req : Bool)
    (e : PyError) (h : caught e = true) :
    applyPolicy caught req (.error e) =
      if req then .error e else .ok .none := by
  simp [applyPolicy, h]

theorem exceptMap_ok_mem {α ε β : Type _} {f : α → Except ε β} :
    ∀ {l : List α} {bs : List β}, exceptMap f l = .ok bs →
      ∀ a ∈ l, ∃ b, f a = .ok b := by
  intro l
  induction l with
  | nil => intro bs _ a ha; cases ha
  | cons x xs ih =>
    intro bs h a ha
    rw [exceptMap] at h
    cases hfx : f x with
    | error e => rw [hfx] at h; simp at h
    | ok b =>
      rw [hfx] at h
      cases hrest : exceptMap f xs with
      | error e => rw [hrest] at h; simp at h
      | ok bs2 =>
        rcases List.mem_cons.mp ha with rfl | hmem
        · exact ⟨b, hfx⟩
        · exact ih hrest a hmem

theorem allStrings_map_str : ∀ ss : List String,
    allStrings (ss.map PyVal.str) = some ss := by
  intro ss
  induction ss with
  | nil => rfl
  | cons s rest ih => simp [allStrings, ih]

/-- A document whose root has two direct children named `e`: an ambiguous
match for any singular field rule on source name `e`. -/
def ambDoc : Node := .mk "p" "" [] [.mk "e" "1" [] [], .mk "e" "2" [] []]

/-- A document with two `x.list` containers: an ambiguous multilines
match. -/
def ambML : Node := .mk "p" "" [] [.mk "x.list" "" [] [], .mk "x.list" "" [] []]

/-- Claim C1 (counterexample): an optional `elements` field with two
matching candidates does not raise the ambiguous-match `NameError` — the
first handler of `_process_elements` catches it and resolves the field to
`None`, so the claimed required-flag independence fails. -/
theorem ambiguous_match_optional_swallowed :
    processElementsEntry 0 (Soup.node ambDoc) "e" ValueType.decimal false =
      .ok PyVal.none := by
  simp [processElementsEntry, elementsEntryBody, soupFindChildrenDirect,
    Node.findChildrenDirect, Node.children, Node.name, applyPolicy,
    elementsCaught, ambDoc]

/-- Claim C1 (amended): for `elements` and `descendantElements` fields with
a non-string value type, two or more matching candidates raise the
ambiguous-match `NameError` only when the field is required; when optional
the error is swallowed into `None`. For `multilines` fields, two or more
matching containers raise a bare `Exception` that always propagates,
independent of the required flag. -/
theorem ambiguous_match_policy :
    (∀ ctx n src vt req, vt ≠ ValueType.str →
        2 ≤ (n.findChildrenDirect src).length →
        processElementsEntry ctx (Soup.node n) src vt req =
          if req then .error .nameError else .ok .none) ∧
    (∀ ctx n src vt req, vt ≠ ValueType.str →
        2 ≤ (n.findChildren src).length →
        processDescendentEntry ctx (Soup.node n) src vt req =
          if req then .error .nameError else .ok .none) ∧
    (∀ ctx n src vt req,
        2 ≤ (n.findChildren (src ++ ".list")).length →
        processMultilinesEntry ctx (Soup.node n) src vt req =
          .error .exception) := by
  refine ⟨?_, ?_, ?_⟩
  · intro ctx n src vt req hvt hlen
    rw [processElementsEntry, elementsEntryBody]
    cases vt with
    | str => exact absurd rfl hvt
    | element es ds as ls ms =>
        simp only [soupFindChildrenDirect]
        rw [if_pos (by omega)]
        exact applyPolicy_caught _ _ _ rfl
    | decimal =>
        simp only [soupFindChildrenDirect]
        rw [if_pos (by omega)]
        exact applyPolicy_caught _ _ _ rfl
    | intType =>
        simp only [soupFindChildrenDirect]
        rw [if_pos (by omega)]
        exact applyPolicy_caught _ _ _ rfl
  · intro ctx n src vt req hvt hlen
    rw [processDescendentEntry, descendentEntryBody]
    cases vt with
    | str => exact absurd rfl hvt
    | element es ds as ls ms =>
        simp only [soupFindChildren]
        rw [if_pos (by omega)]
        exact applyPolicy_caught _ _ _ rfl
    | decimal =>
        simp only [soupFindChildren]
        rw [if_pos (by omega)]
        exact applyPolicy_caught _ _ _ rfl
    | intType =>
        simp only [soupFindChildren]
        rw [if_pos (by omega)]
        exact applyPolicy_caught _ _ _ rfl
  · intro ctx n src vt req hlen
    rw [processMultilinesEntry, multilinesEntryBody]
    simp only [soupFindChildren]
    obtain ⟨a, t, hc⟩ : ∃ a t, n.findChildren (src ++ ".list") = a :: t := by
      cases hcc : n.findChildren (src ++ ".list") with
      | nil => rw [hcc] at hlen; simp at hlen
      | cons a t => exact ⟨a, t, rfl⟩
    obtain ⟨b, t2, ht⟩ : ∃ b t2, t = b :: t2 := by
      rw [hc] at hlen
      cases htt : t with
      | nil => rw [htt] at hlen; simp at hlen
      | cons b t2 => exact ⟨b, t2, rfl⟩
    rw [hc, ht]
    simp only [List.length_cons, Nat.add_eq]
    rw [if_neg (by simp), if_pos (by omega)]
    exact applyPolicy_uncaught _ _ _ rfl

/-- Claim C1 (witness for the amended theorem). -/
theorem ambiguous_match_policy_witness :
    processElementsEntry 0 (Soup.node ambDoc) "e" ValueType.decimal true =
        .error .nameError ∧
    processDescendentEntry 0 (Soup.node ambDoc) "e" ValueType.decimal true =
        .error .nameError ∧
    processMultilinesEntry 0 (Soup.node ambML) "x" ValueType.str false =
        .error .exception := by
  refine ⟨?_, ?_, ?_⟩
  · have h := ambiguous_match_policy.1 0 ambDoc "e" ValueType.decimal true
      (fun hh => ValueType.noConfusion hh) (by decide)
    simpa using h
  · have h := ambiguous_match_policy.2.1 0 ambDoc "e" ValueType.decimal true
      (fun hh => ValueType.noConfusion hh) (by decide)
    simpa using h
  · exact ambiguous_match_policy.2.2 0 ambML "x" ValueType.str false (by decide)

/-- A document whose root carries attribute `a="x"`, which `int` cannot
parse. -/
def attrsValDoc : Node := .mk "p" "" [("a", "x")] []

/-- Claim C2 (counterexample): in the `attrs` pass a `ValueError` raised
while coercing (`int("x")`) is swallowed into `None` for an optional field
by the bare `except:` handler, so a value-validation failure does not
always propagate. -/
theorem valueerror_swallowed_in_attrs :
    processAttrsEntry 0 (Soup.node attrsValDoc) "a" ValueType.intType false =
      .ok PyVal.none := by
  simp [processAttrsEntry, attrsEntryBody, applyPolicy, coerceText,
    attrsValDoc, Node.attrs]
  rfl

/-- Claim C2 (amended): a `ValueError` raised inside the entry body always
propagates out of the `elements`, `descendantElements`, `multilines` and
`lists` passes regardless of the required flag; in the `attrs` pass the
bare `except:` applies the optional/required policy to it, swallowing it
into `None` when the field is optional. -/
theorem valueerror_propagation :
    (∀ ctx sp src vt req,
        elementsEntryBody ctx sp src vt = .error .valueError →
        processElementsEntry ctx sp src vt req = .error .valueError) ∧
    (∀ ctx sp src vt req,
        descendentEntryBody ctx sp src vt = .error .valueError →
        processDescendentEntry ctx sp src vt req = .error .valueError) ∧
    (∀ ctx sp src vt req,
        multilinesEntryBody ctx sp src vt = .error .valueError →
        processMultilinesEntry ctx sp src vt req = .error .valueError) ∧
    (∀ ctx sp src vt,
        listsEntryBody ctx sp src vt = .error .valueError →
        processListsEntry ctx sp src vt = .error .valueError) ∧
    (∀ ctx sp src vt req,
        attrsEntryBody ctx sp src vt = .error .valueError →
        processAttrsEntry ctx sp src vt req =
          if req then .error .valueError else .ok .none) := by
  refine ⟨?_, ?_, ?_, ?_, ?_⟩
  · intro ctx sp src vt req h
    rw [processElementsEntry, h]
    exact applyPolicy_uncaught _ _ _ rfl
  · intro ctx sp src vt req h
    rw [processDescendentEntry, h]
    exact applyPolicy_uncaught _ _ _ rfl
  · intro ctx sp src vt req h
    rw [processMultilinesEntry, h]
    exact applyPolicy_uncaught _ _ _ rfl
  · intro ctx sp src vt h
    rw [processListsEntry]
    exact h
  · intro ctx sp src vt req h
    rw [processAttrsEntry, h]
    exact applyPolicy_caught _ _ _ rfl

/-- A document with a single `e` child whose text `int` cannot parse. -/
def valDoc : Node := .mk "p" "" [] [.mk "e" "x" [] []]

/-- A document with one `e.list` container holding one `e` line whose text
`int` cannot parse. -/
def valML : Node := .mk "p" "" [] [.mk "e.list" "" [] [.mk "e" "x" [] []]]

/-- A nested element type whose extraction raises `ValueError` (its own
`elements` pass re-raises the coercion failure of `int("x")` even though
the nested field is optional). -/
def vtValErr : ValueType := .element [("v", "v", .intType, false)] [] [] [] []

/-- A document with one `i.list` container whose child `v` makes the nested
`vtValErr` construction raise `ValueError`. -/
def valLists : Node := .mk "p" "" [] [.mk "i.list" "" [] [.mk "v" "x" [] []]]

/-- Claim C2 (witness for the amended theorem). -/
theorem valueerror_propagation_witness :
    processElementsEntry 0 (Soup.node valDoc) "e" ValueType.intType true =
        .error .valueError ∧
    processDescendentEntry 0 (Soup.node valDoc) "e" ValueType.intType false =
        .error .valueError ∧
    processMultilinesEntry 0 (Soup.node valML) "e" ValueType.intType false =
        .error .valueError ∧
    processListsEntry 0 (Soup.node valLists) "i" vtValErr =
        .error .valueError ∧
    processAttrsEntry 0 (Soup.node attrsValDoc) "a" ValueType.intType true =
        .error .valueError := by
  refine ⟨?_, ?_, ?_, ?_, ?_⟩
  · exact valueerror_propagation.1 0 (Soup.node valDoc) "e" ValueType.intType
      true (by
        simp [elementsEntryBody, soupFindChildrenDirect, Node.findChildrenDirect,
          Node.children, Node.name, coerceText, Node.getText, Node.getTextList,
          valDoc]
        rfl)
  · exact valueerror_propagation.2.1 0 (Soup.node valDoc) "e"
      ValueType.intType false (by
        simp [descendentEntryBody, soupFindChildren, Node.findChildren,
          Node.descendants, Node.descendantsList, Node.children, Node.name,
          coerceText, Node.getText, Node.getTextList, valDoc]
        rfl)
  · exact valueerror_propagation.2.2.1 0 (Soup.node valML) "e"
      ValueType.intType false (by
        simp [multilinesEntryBody, soupFindChildren, Node.findChildren,
          Node.descendants, Node.descendantsList, Node.children, Node.name,
          coerceText, Node.getText, Node.getTextList, exceptMap, valML]
        rfl)
  · exact valueerror_propagation.2.2.2.1 0 (Soup.node valLists) "i"
      vtValErr (by
        simp [listsEntryBody, soupFindChildren, Node.findChildren,
          Node.descendants, Node.descendantsList, Node.children, Node.name,
          exceptMap, coerceNodeArg, vtValErr, constructElement, processAttrs,
          processElements, processLists, processMultilines,
          processDescendentElements, processElementsEntry, elementsEntryBody,
          soupFindChildrenDirect, Node.findChildrenDirect, applyPolicy,
          elementsCaught, coerceText, Node.getText, Node.getTextList, valLists]
        rfl)
  · exact valueerror_propagation.2.2.2.2 0 (Soup.node attrsValDoc) "a"
      ValueType.intType true (by
        simp [attrsEntryBody, Node.attrs, coerceText, attrsValDoc]
        rfl)

/-- A candidate node `<e><x>5</x></e>` for a nested-element field. -/
def nestedCand : Node := .mk "e" "" [] [.mk "x" "5" [] []]

/-- A document whose root holds exactly one `nestedCand` candidate. -/
def nestedDoc : Node := .mk "p" "" [] [nestedCand]

/-- A nested element type with one required decimal field `x`. -/
def vtNested : ValueType := .element [("x", "x", .decimal, true)] [] [] [] []

/-- A document with one `e.list` container shaped like `nestedCand`, for
the `lists` pass. -/
def nestedListDoc : Node :=
  .mk "p" "" [] [.mk "e.list" "" [] [.mk "x" "5" [] []]]

/-- Claim C3: constructing the nested type from the candidate *node* (as the
spec describes and as `_process_lists` does) succeeds and yields the
recursively populated object with the inherited context, but
`_process_elements` passes `candidates[0].text` — the string `"5"` — to the
constructor, whose extraction then fails with `AttributeError` (a string
has no `findChildren`), so a required nested-element field errors instead
of producing the object. -/
theorem nested_element_constructed_from_text :
    constructElement 3 [("x", "x", ValueType.decimal, true)] [] [] [] []
        (Soup.node nestedCand) = .ok (.obj 3 [("x", .dec 5 0)]) ∧
    processElementsEntry 3 (Soup.node nestedDoc) "e" vtNested true =
        .error .attributeError ∧
    processListsEntry 3 (Soup.node nestedListDoc) "e" vtNested =
        .ok (.list [.obj 3 [("x", .dec 5 0)]]) := by
  refine ⟨?_, ?_, ?_⟩
  · simp [constructElement, processAttrs, processElements, processLists,
      processMultilines, processDescendentElements, processElementsEntry,
      elementsEntryBody, soupFindChildrenDirect, Node.findChildrenDirect,
      Node.children, Node.name, applyPolicy, Node.getText, Node.getTextList,
      coerceText, nestedCand]
    rfl
  · simp [processElementsEntry, elementsEntryBody, soupFindChildrenDirect,
      Node.findChildrenDirect, Node.children, Node.name, applyPolicy,
      elementsCaught, Node.getText, Node.getTextList, constructElement,
      processAttrs, processElements, processLists, processMultilines,
      processDescendentElements, nestedDoc, nestedCand, vtNested]
  · simp [processListsEntry, listsEntryBody, soupFindChildren,
      Node.findChildren, Node.descendants, Node.descendantsList,
      Node.children, Node.name, exceptMap, coerceNodeArg, vtNested,
      constructElement, processAttrs, processElements, processLists,
      processMultilines, processDescendentElements, processElementsEntry,
      elementsEntryBody, soupFindChildrenDirect, Node.findChildrenDirect,
      applyPolicy, Node.getText, Node.getTextList, coerceText, nestedListDoc]
    rfl

/-- A document with a single whitespace-only `e` child. -/
def wsDoc : Node := .mk "p" "" [] [.mk "e" " " [] []]

/-- Claim C4 (counterexample): in the `descendantElements` pass a
decimal-typed single-candidate field with whitespace-only text does not
resolve to zero — `Decimal(" ")` raises `InvalidOperation`, which for a
required field propagates. -/
theorem descendent_decimal_whitespace_raises :
    processDescendentEntry 0 (Soup.node wsDoc) "e" ValueType.decimal true =
        .error .invalidOperation ∧
    processDescendentEntry 0 (Soup.node wsDoc) "e" ValueType.decimal true ≠
        .ok (PyVal.dec 0 0) := by
  have h : processDescendentEntry 0 (Soup.node wsDoc) "e" ValueType.decimal
      true = .error .invalidOperation := by
    simp [processDescendentEntry, descendentEntryBody, soupFindChildren,
      Node.findChildren, Node.descendants, Node.descendantsList,
      Node.children, Node.name, applyPolicy, elementsCaught, coerceText,
      Node.getText, Node.getTextList, wsDoc]
    rfl
  exact ⟨h, by rw [h]; simp⟩

/-- Claim C4 (amended): the whitespace-to-zero fallback for decimal-typed
single-candidate fields exists only in the `elements` pass; in the
`descendantElements` pass the same situation coerces through `Decimal`,
raising `InvalidOperation`, which is handled by the optional/required
policy. -/
theorem decimal_whitespace_zero_policy :
    (∀ ctx n src req c, n.findChildrenDirect src = [c] →
        pyStrip c.getText = "" →
        processElementsEntry ctx (Soup.node n) src .decimal req =
          .ok (.dec 0 0)) ∧
    (∀ ctx n src req c, n.findChildren src = [c] →
        pyStrip c.getText = "" →
        processDescendentEntry ctx (Soup.node n) src .decimal req =
          if req then .error .invalidOperation else .ok .none) := by
  constructor
  · intro ctx n src req c hc hws
    rw [processElementsEntry, elementsEntryBody]
    simp only [soupFindChildrenDirect, hc]
    simp [applyPolicy, hws]
  · intro ctx n src req c hc hws
    rw [processDescendentEntry, descendentEntryBody]
    simp only [soupFindChildren, hc]
    have hpd : parseDecimal c.getText = none := by
      rw [parseDecimal, hws]
      rfl
    simp only [List.length_cons, List.length_nil]
    rw [if_neg (by omega)]
    rw [coerceText, hpd]
    exact applyPolicy_caught _ _ _ rfl

/-- Claim C4 (witness for the amended theorem). -/
theorem decimal_whitespace_zero_policy_witness :
    processElementsEntry 0 (Soup.node wsDoc) "e" ValueType.decimal true =
        .ok (.dec 0 0) ∧
    processDescendentEntry 0 (Soup.node wsDoc) "e" ValueType.decimal false =
        .ok PyVal.none := by
  constructor
  · exact decimal_whitespace_zero_policy.1 0 wsDoc "e" true
      (.mk "e" " " [] []) rfl rfl
  · have h := decimal_whitespace_zero_policy.2 0 wsDoc "e" false
      (.mk "e" " " [] []) rfl rfl
    simpa using h

/-- A document with no children and no attributes: every source node is
missing. -/
def emptyDoc : Node := .mk "p" "" [] []

/-- Claim C5 (counterexample): a required string-typed `elements` entry on
a document missing its source node yields the empty string without
raising — the `str` branch joins zero candidates and never consults the
required flag, so not every `required=true` entry raises on a missing
node. -/
theorem required_string_missing_no_raise :
    processElementsEntry 0 (Soup.node emptyDoc) "e" ValueType.str true =
      .ok (.str "") := by
  simp [processElementsEntry, elementsEntryBody, soupFindChildrenDirect,
    Node.findChildrenDirect, Node.children, Node.name, applyPolicy, emptyDoc]
  rfl

/-- Claim C5 (amended): on a document missing the source node, optional
entries resolve to `None` (non-string `elements`/`descendantElements`,
`attrs`) or the empty string (string-typed and `multilines` entries)
without raising; required entries raise the required-miss error only in
the `attrs` and non-string `elements`/`descendantElements` categories,
while string-typed and `multilines` entries yield the empty string
regardless of the required flag. -/
theorem required_miss_policy :
    (∀ ctx n src vt req, vt ≠ ValueType.str →
        n.findChildrenDirect src = [] →
        processElementsEntry ctx (Soup.node n) src vt req =
          if req then .error .indexError else .ok .none) ∧
    (∀ ctx n src vt req, vt ≠ ValueType.str →
        n.findChildren src = [] →
        processDescendentEntry ctx (Soup.node n) src vt req =
          if req then .error .indexError else .ok .none) ∧
    (∀ ctx n src vt req, n.attrs.lookup src = none →
        processAttrsEntry ctx (Soup.node n) src vt req =
          if req then .error .keyError else .ok .none) ∧
    (∀ ctx n src req, n.findChildrenDirect src = [] →
        processElementsEntry ctx (Soup.node n) src .str req =
          .ok (.str "")) ∧
    (∀ ctx n src req, n.findChildren src = [] →
        processDescendentEntry ctx (Soup.node n) src .str req =
          .ok (.str "")) ∧
    (∀ ctx n src vt req, n.findChildren (src ++ ".list") = [] →
        processMultilinesEntry ctx (Soup.node n) src vt req =
          .ok (.str "")) := by
  refine ⟨?_, ?_, ?_, ?_, ?_, ?_⟩
  · intro ctx n src vt req hvt hc
    rw [processElementsEntry, elementsEntryBody]
    simp only [soupFindChildrenDirect, hc]
    cases vt with
    | str => exact absurd rfl hvt
    | element es ds as ls ms => exact applyPolicy_caught _ _ _ rfl
    | decimal => exact applyPolicy_caught _ _ _ rfl
    | intType => exact applyPolicy_caught _ _ _ rfl
  · intro ctx n src vt req hvt hc
    rw [processDescendentEntry, descendentEntryBody]
    simp only [soupFindChildren, hc]
    cases vt with
    | str => exact absurd rfl hvt
    | element es ds as ls ms => exact applyPolicy_caught _ _ _ rfl
    | decimal => exact applyPolicy_caught _ _ _ rfl
    | intType => exact applyPolicy_caught _ _ _ rfl
  · intro ctx n src vt req ha
    rw [processAttrsEntry, attrsEntryBody]
    simp only [ha]
    exact applyPolicy_caught _ _ _ rfl
  · intro ctx n src req hc
    rw [processElementsEntry, elementsEntryBody]
    simp only [soupFindChildrenDirect, hc]
    rfl
  · intro ctx n src req hc
    rw [processDescendentEntry, descendentEntryBody]
    simp only [soupFindChildren, hc]
    rfl
  · intro ctx n src vt req hc
    rw [processMultilinesEntry, multilinesEntryBody]
    simp only [soupFindChildren, hc]
    rfl

/-- Claim C5 (witness for the amended theorem). -/
theorem required_miss_policy_witness :
    processElementsEntry 0 (Soup.node emptyDoc) "e" ValueType.decimal true =
        .error .indexError ∧
    processDescendentEntry 0 (Soup.node emptyDoc) "e" ValueType.decimal
        false = .ok PyVal.none ∧
    processAttrsEntry 0 (Soup.node emptyDoc) "a" ValueType.str true =
        .error .keyError ∧
    processDescendentEntry 0 (Soup.node emptyDoc) "e" ValueType.str true =
        .ok (.str "") ∧
    processMultilinesEntry 0 (Soup.node emptyDoc) "m" ValueType.str true =
        .ok (.str "") := by
  refine ⟨?_, ?_, ?_, ?_, ?_⟩
  · have h := required_miss_policy.1 0 emptyDoc "e" ValueType.decimal true
      (fun hh => ValueType.noConfusion hh) rfl
    simpa using h
  · have h := required_miss_policy.2.1 0 emptyDoc "e" ValueType.decimal false
      (fun hh => ValueType.noConfusion hh) rfl
    simpa using h
  · have h := required_miss_policy.2.2.1 0 emptyDoc "a" ValueType.str true
      rfl
    simpa using h
  · exact required_miss_policy.2.2.2.2.1 0 emptyDoc "e" true rfl
  · exact required_miss_policy.2.2.2.2.2 0 emptyDoc "m" ValueType.str true
      rfl

/-- Claim C6: when the transport fails with `TallyNotAvailable` and both a
cache store and a cache name exist and the store holds a raw response under
`<cachename>.xml`, `soup` returns the cached content instead of raising;
with no cache name configured the same failure surfaces immediately; and a
document type without a `_cachename` has no cache name for any company. -/
theorem document_cache_fallback :
    (∀ env store cn doc, env.transport = .error .tallyNotAvailable →
        env.cachefs = some store → env.cachename = some cn →
        store.lookup (cn ++ ".xml") = some doc →
        soupGet env none = .ok doc) ∧
    (∀ env, env.transport = .error .tallyNotAvailable →
        env.cachename = none →
        soupGet env none = .error .tallyNotAvailable) ∧
    (∀ company, cachenameOf none company = none) := by
  refine ⟨?_, ?_, ?_⟩
  · intro env store cn doc ht hfs hcn hk
    rw [soupGet, ht, hfs, hcn]
    simp [acquireCachedRaw, hfs, hcn, hk]
  · intro env ht hcn
    rw [soupGet, ht, hcn]
    cases hfs : env.cachefs <;> rfl
  · intro company
    rfl

/-- A cached raw response document. -/
def cachedDoc : Node := .mk "envelope" "" [] []

/-- An environment whose transport is unreachable but whose cache store
holds a response for cache name `k`. -/
def envCached : ReportEnv :=
  ⟨.error .tallyNotAvailable, some [("k.xml", cachedDoc)], some "k"⟩

/-- An environment whose transport is unreachable and whose document type
has no cache name. -/
def envNoKey : ReportEnv :=
  ⟨.error .tallyNotAvailable, some [("k.xml", cachedDoc)], none⟩

/-- Claim C6 (witness). -/
theorem document_cache_fallback_witness :
    soupGet envCached none = .ok cachedDoc ∧
    soupGet envNoKey none = .error .tallyNotAvailable := by
  constructor
  · exact document_cache_fallback.1 envCached [("k.xml", cachedDoc)] "k"
      cachedDoc rfl rfl rfl rfl
  · exact document_cache_fallback.2.1 envNoKey rfl rfl

/-- Claim C7: multilines extraction with zero matching `.list` containers
yields the empty string; with exactly one container, zero coerced lines
yield the empty string, exactly one coerced line yields that line itself
with no separator, and two or more string-coerced lines yield their
newline join. -/
theorem multilines_join_semantics :
    (∀ ctx n src vt req, n.findChildren (src ++ ".list") = [] →
        processMultilinesEntry ctx (Soup.node n) src vt req =
          .ok (.str "")) ∧
    (∀ ctx n src vt req c, n.findChildren (src ++ ".list") = [c] →
        c.findChildren src = [] →
        processMultilinesEntry ctx (Soup.node n) src vt req =
          .ok (.str "")) ∧
    (∀ ctx n src vt req c l v, n.findChildren (src ++ ".list") = [c] →
        c.findChildren src = [l] →
        coerceText ctx vt (pyStrip (Node.getText l)) = .ok v →
        processMultilinesEntry ctx (Soup.node n) src vt req = .ok v) ∧
    (∀ ctx n src vt req c ss, n.findChildren (src ++ ".list") = [c] →
        exceptMap (fun l => coerceText ctx vt (pyStrip (Node.getText l)))
            (c.findChildren src) = .ok (ss.map PyVal.str) →
        2 ≤ ss.length →
        processMultilinesEntry ctx (Soup.node n) src vt req =
          .ok (.str (String.intercalate "\n" ss))) := by
  refine ⟨?_, ?_, ?_, ?_⟩
  · intro ctx n src vt req hc
    rw [processMultilinesEntry, multilinesEntryBody]
    simp only [soupFindChildren, hc]
    rfl
  · intro ctx n src vt req c hc hl
    rw [processMultilinesEntry, multilinesEntryBody]
    simp only [soupFindChildren, hc, hl]
    rfl
  · intro ctx n src vt req c l v hc hl hco
    rw [processMultilinesEntry, multilinesEntryBody]
    simp only [soupFindChildren, hc, hl]
    simp only [List.length_cons, List.length_nil]
    rw [if_neg (by simp), if_neg (by omega)]
    rw [exceptMap, hco, exceptMap]
    rfl
  · intro ctx n src vt req c ss hc hm hlen
    rw [processMultilinesEntry, multilinesEntryBody]
    simp only [soupFindChildren, hc, hm]
    simp only [List.length_cons, List.length_nil]
    rw [if_neg (by simp), if_neg (by omega)]
    obtain ⟨s1, ss1, rfl⟩ : ∃ s1 ss1, ss = s1 :: ss1 := by
      cases hss : ss with
      | nil => rw [hss] at hlen; simp at hlen
      | cons s1 ss1 => exact ⟨s1, ss1, rfl⟩
    obtain ⟨s2, ss2, rfl⟩ : ∃ s2 ss2, ss1 = s2 :: ss2 := by
      cases hss : ss1 with
      | nil => rw [hss] at hlen; simp at hlen
      | cons s2 ss2 => exact ⟨s2, ss2, rfl⟩
    simp only [List.map_cons]
    have hall : allStrings
        (PyVal.str s1 :: PyVal.str s2 :: List.map PyVal.str ss2) =
        some (s1 :: s2 :: ss2) := by
      have h2 := allStrings_map_str (s1 :: s2 :: ss2)
      simpa using h2
    rw [joinLines, hall]
    rfl

/-- A document with one `m.list` container holding two `m` lines with
whitespace around their texts. -/
def mlDoc : Node :=
  .mk "p" "" []
    [.mk "m.list" "" [] [.mk "m" " x " [] [], .mk "m" "y" [] []]]

/-- A document with one `m.list` container holding one `m` line. -/
def mlDocOne : Node :=
  .mk "p" "" [] [.mk "m.list" "" [] [.mk "m" " x " [] []]]

/-- A document with one empty `m.list` container. -/
def mlDocEmptyC : Node := .mk "p" "" [] [.mk "m.list" "" [] []]

/-- Claim C7 (witness). -/
theorem multilines_join_semantics_witness :
    processMultilinesEntry 0 (Soup.node emptyDoc) "m" ValueType.str true =
        .ok (.str "") ∧
    processMultilinesEntry 0 (Soup.node mlDocEmptyC) "m" ValueType.str true =
        .ok (.str "") ∧
    processMultilinesEntry 0 (Soup.node mlDocOne) "m" ValueType.str true =
        .ok (.str "x") ∧
    processMultilinesEntry 0 (Soup.node mlDoc) "m" ValueType.str true =
        .ok (.str "x\ny") := by
  refine ⟨?_, ?_, ?_, ?_⟩
  · exact multilines_join_semantics.1 0 emptyDoc "m" ValueType.str true rfl
  · exact multilines_join_semantics.2.1 0 mlDocEmptyC "m" ValueType.str true
      (.mk "m.list" "" [] []) rfl rfl
  · exact multilines_join_semantics.2.2.1 0 mlDocOne "m" ValueType.str true
      (.mk "m.list" "" [] [.mk "m" " x " [] []]) (.mk "m" " x " [] [])
      (.str "x") rfl rfl (by rw [coerceText]; rfl)
  · exact multilines_join_semantics.2.2.2 0 mlDoc "m" ValueType.str true
      (.mk "m.list" "" [] [.mk "m" " x " [] [], .mk "m" "y" [] []])
      ["x", "y"] rfl
      (by
        simp [exceptMap, Node.findChildren, Node.descendants,
          Node.descendantsList, Node.children, Node.name, coerceText,
          Node.getText, Node.getTextList]
        exact ⟨rfl, rfl⟩)
      (by decide)

/-- A document with two direct `e` children and one nested `e` descendant,
to distinguish the direct and recursive string concatenations. -/
def concatDoc : Node :=
  .mk "p" "" []
    [.mk "e" "a" [] [], .mk "w" "" [] [.mk "e" "c" [] []],
     .mk "e" "b" [] []]

/-- Claim C8: a string-typed `elements` or `descendantElements` field
yields the `:`-join of the text of all matching candidates (direct
children versus all descendants respectively), in particular the empty
string for zero candidates, with neither the single-candidate check nor
the required-miss policy applied — the result is a success for every
document and required flag. -/
theorem string_concatenation_semantics :
    (∀ ctx n src req,
        processElementsEntry ctx (Soup.node n) src .str req =
          .ok (.str (String.intercalate ":"
            ((n.findChildrenDirect src).map Node.getText)))) ∧
    (∀ ctx n src req,
        processDescendentEntry ctx (Soup.node n) src .str req =
          .ok (.str (String.intercalate ":"
            ((n.findChildren src).map Node.getText)))) ∧
    (∀ ctx n src req, n.findChildrenDirect src = [] →
        processElementsEntry ctx (Soup.node n) src .str req =
          .ok (.str "")) ∧
    (∀ ctx n src req, n.findChildren src = [] →
        processDescendentEntry ctx (Soup.node n) src .str req =
          .ok (.str "")) := by
  have h1 : ∀ ctx (n : Node) src req,
      processElementsEntry ctx (Soup.node n) src .str req =
        .ok (.str (String.intercalate ":"
          ((n.findChildrenDirect src).map Node.getText))) := by
    intro ctx n src req
    rw [processElementsEntry, elementsEntryBody]
    simp only [soupFindChildrenDirect]
    rfl
  have h2 : ∀ ctx (n : Node) src req,
      processDescendentEntry ctx (Soup.node n) src .str req =
        .ok (.str (String.intercalate ":"
          ((n.findChildren src).map Node.getText))) := by
    intro ctx n src req
    rw [processDescendentEntry, descendentEntryBody]
    simp only [soupFindChildren]
    rfl
  refine ⟨h1, h2, ?_, ?_⟩
  · intro ctx n src req hc
    rw [h1, hc]
    rfl
  · intro ctx n src req hc
    rw [h2, hc]
    rfl

/-- Claim C8 (witness). -/
theorem string_concatenation_semantics_witness :
    processElementsEntry 0 (Soup.node concatDoc) "e" ValueType.str true =
        .ok (.str "a:b") ∧
    processDescendentEntry 0 (Soup.node concatDoc) "e" ValueType.str true =
        .ok (.str "a:c:b") ∧
    processElementsEntry 0 (Soup.node emptyDoc) "q" ValueType.str true =
        .ok (.str "") ∧
    processDescendentEntry 0 (Soup.node emptyDoc) "q" ValueType.str false =
        .ok (.str "") := by
  refine ⟨?_, ?_, ?_, ?_⟩
  · have h := string_concatenation_semantics.1 0 concatDoc "e" true
    rw [h]
    rfl
  · have h := string_concatenation_semantics.2.1 0 concatDoc "e" true
    rw [h]
    rfl
  · exact string_concatenation_semantics.2.2.1 0 emptyDoc "q" true rfl
  · exact string_concatenation_semantics.2.2.2 0 emptyDoc "q" false rfl

theorem reportGetattr_hit {cfg : ReportConfig} {env : ReportEnv}
    {st : ReportState} {item : String} {v : PyVal}
    (h : instLookup st.instAttrs item = some v) :
    reportGetattr cfg env st item = .ok (v, st) := by
  rw [reportGetattr, h]

theorem reportGetattr_ok_lookup {cfg : ReportConfig} {env : ReportEnv}
    {st : ReportState} {item : String} {v : PyVal} {st' : ReportState}
    (h : reportGetattr cfg env st item = .ok (v, st')) :
    instLookup st'.instAttrs item = some v := by
  rw [reportGetattr] at h
  cases hl : instLookup st.instAttrs item with
  | some w =>
      rw [hl] at h
      simp only [Except.ok.injEq, Prod.mk.injEq] at h
      obtain ⟨rfl, rfl⟩ := h
      exact hl
  | none =>
      rw [hl] at h
      dsimp only at h
      cases hc : cfg.content.lookup item with
      | none => rw [hc] at h; simp at h
      | some p =>
          obtain ⟨tag, spec⟩ := p
          rw [hc] at h
          dsimp only at h
          cases hs : soupGet env st.soup with
          | error e => rw [hs] at h; simp at h
          | ok doc =>
              rw [hs] at h
              dsimp only at h
              cases hsc : scopedSoup cfg.container doc with
              | error e => rw [hsc] at h; simp at h
              | ok sd =>
                  rw [hsc] at h
                  dsimp only at h
                  cases hm : exceptMap
                      (fun x => constructFromSpec st.ctxId spec (Soup.node x))
                      (sd.findChildren tag) with
                  | error e => rw [hm] at h; simp at h
                  | ok objs =>
                      rw [hm] at h
                      dsimp only at h
                      cases hb : buildMapping [] objs with
                      | error e => rw [hb] at h; simp at h
                      | ok d =>
                          rw [hb] at h
                          simp only [Except.ok.injEq, Prod.mk.injEq] at h
                          obtain ⟨rfl, rfl⟩ := h
                          simp [instLookup, List.reverse_append, List.lookup]

/-- Claim C9: an access to a declared collection name that succeeds leaves
the resulting mapping installed as an instance attribute, so a second
access to the same name returns exactly the object produced by the first —
the instance-attribute hit bypasses `__getattr__` — even if the memoized
document is replaced and the transport environment changes between the two
accesses. -/
theorem collection_access_memoized :
    ∀ cfg env st item v st',
      reportGetattr cfg env st item = .ok (v, st') →
      ∀ env2 doc2,
        reportGetattr cfg env2 { st' with soup := doc2 } item =
          .ok (v, { st' with soup := doc2 }) := by
  intro cfg env st item v st' h env2 doc2
  have hl := reportGetattr_ok_lookup h
  exact reportGetattr_hit (by simpa [instLookup] using hl)

/-- A `tallyunit`-shaped element with a `name` child. -/
def unitNode : Node := .mk "tallyunit" "" [] [.mk "name" "a" [] []]

/-- The document the first collection access reads. -/
def docB : Node := .mk "body" "" [] [unitNode]

/-- A mutated replacement document containing no units at all. -/
def docM : Node := .mk "body" "mutated" [] []

/-- A miniature `TallyUnit`-style spec: one required string `name` field. -/
def specW : ElemSpec := ⟨[("name", "name", .str, true)], [], [], [], []⟩

/-- Report configuration declaring one collection, `units`, with no
container scoping. -/
def cfgW : ReportConfig := ⟨none, [("units", ("tallyunit", specW))]⟩

/-- Transport environment (irrelevant once the document is memoized). -/
def envW : ReportEnv := ⟨.error .tallyNotAvailable, none, none⟩

/-- The mapping the first `units` access constructs from `docB`. -/
def unitsVal : PyVal := .dict [("a", .obj 5 [("name", .str "a")])]

/-- Claim C9 (witness): after a first access computed `unitsVal` from
`docB`, a second access with the document replaced by `docM` still
returns `unitsVal`. -/
theorem collection_access_memoized_witness :
    reportGetattr cfgW envW
        { ctxId := 5, soup := some docM,
          instAttrs := [("units", unitsVal)] } "units" =
      .ok (unitsVal,
        { ctxId := 5, soup := some docM,
          instAttrs := [("units", unitsVal)] }) := by
  have h1 : reportGetattr cfgW envW ⟨5, some docB, []⟩ "units" =
      .ok (unitsVal, ⟨5, some docB, [("units", unitsVal)]⟩) := by
    simp [reportGetattr, instLookup, List.lookup, cfgW, soupGet, scopedSoup,
      Node.findChildren, Node.descendants, Node.descendantsList,
      Node.children, Node.name, exceptMap, constructFromSpec, specW,
      constructElement, processAttrs, processElements, processLists,
      processMultilines, processDescendentElements, processElementsEntry,
      elementsEntryBody, soupFindChildrenDirect, Node.findChildrenDirect,
      applyPolicy, Node.getText, Node.getTextList, buildMapping, objName,
      ciInsert, unitsVal, docB, unitNode]
    exact ⟨rfl, rfl⟩
  have h2 := collection_access_memoized cfgW envW _ "units" unitsVal _ h1
    envW (some docM)
  simpa using h2

/-- Claim C10: the `lists` pass applies no optional/required policy — its
entries carry no required flag (type `LEntry`), there is no handler around
the body, so if the construction of any `<sourceName>.list` candidate
fails, the pass never produces a value (neither `None` nor any sequence),
and the same failure aborts the whole extraction when the table holds the
entry. -/
theorem lists_no_error_policy :
    (∀ ctx (n : Node) src vt c, c ∈ n.findChildren (src ++ ".list") →
        (∀ v, coerceNodeArg ctx vt (Soup.node c) ≠ .ok v) →
        ∀ r, processListsEntry ctx (Soup.node n) src vt ≠ .ok r) ∧
    (∀ ctx k src vt (n : Node) c, c ∈ n.findChildren (src ++ ".list") →
        (∀ v, coerceNodeArg ctx vt (Soup.node c) ≠ .ok v) →
        ∀ r, constructElement ctx [] [] [] [(k, src, vt)] []
          (Soup.node n) ≠ .ok r) := by
  have h1 : ∀ ctx (n : Node) src vt c,
      c ∈ n.findChildren (src ++ ".list") →
      (∀ v, coerceNodeArg ctx vt (Soup.node c) ≠ .ok v) →
      ∀ r, processListsEntry ctx (Soup.node n) src vt ≠ .ok r := by
    intro ctx n src vt c hmem hfail r hr
    rw [processListsEntry, listsEntryBody] at hr
    simp only [soupFindChildren] at hr
    cases hm : exceptMap (fun c => coerceNodeArg ctx vt (Soup.node c))
        (n.findChildren (src ++ ".list")) with
    | error e => rw [hm] at hr; simp at hr
    | ok vs =>
        obtain ⟨b, hb⟩ := exceptMap_ok_mem hm c hmem
        exact hfail b hb
  refine ⟨h1, ?_⟩
  intro ctx k src vt n c hmem hfail r hr
  rw [constructElement] at hr
  rw [processAttrs] at hr
  dsimp only at hr
  rw [processElements] at hr
  dsimp only at hr
  rw [processLists] at hr
  cases hE : processListsEntry ctx (Soup.node n) src vt with
  | error e => rw [hE] at hr; simp at hr
  | ok v => exact h1 ctx n src vt c hmem hfail v hE

/-- A document with one empty `i.list` container. -/
def listsFailDoc : Node := .mk "p" "" [] [.mk "i.list" "" [] []]

/-- Claim C10 (witness): `Decimal` applied to a tag raises `TypeError`;
with one `i.list` candidate present, neither the entry nor the whole
extraction can succeed. -/
theorem lists_no_error_policy_witness :
    processListsEntry 0 (Soup.node listsFailDoc) "i" ValueType.decimal ≠
        .ok (PyVal.list []) ∧
    constructElement 0 [] [] [] [("k", "i", ValueType.decimal)] []
        (Soup.node listsFailDoc) ≠ .ok PyVal.none := by
  constructor
  · exact lists_no_error_policy.1 0 listsFailDoc "i" ValueType.decimal
      (.mk "i.list" "" [] [])
      (by
        show Node.mk "i.list" "" [] [] ∈ [Node.mk "i.list" "" [] []]
        exact List.mem_singleton.mpr rfl)
      (by intro v hv; rw [coerceNodeArg] at hv; simp at hv)
      (PyVal.list [])
  · exact lists_no_error_policy.2 0 "k" "i" ValueType.decimal listsFailDoc
      (.mk "i.list" "" [] [])
      (by
        show Node.mk "i.list" "" [] [] ∈ [Node.mk "i.list" "" [] []]
        exact List.mem_singleton.mpr rfl)
      (by intro v hv; rw [coerceNodeArg] at hv; simp at hv)
      PyVal.none

end Tally
